import Mathlib

/-!
# Verification of the bookstore inventory & sales ledger engine

Shallow embedding of `src/server.js`: the JSON "database" is a `Db` record of four
collections, and each HTTP route handler that mutates state becomes a pure function
`Db → Except ApiErr (Db × result)`.  JavaScript numbers are modelled as `ℚ` (prices)
and `ℤ` (quantities, identifiers); the `Number(...)`/`parseInt(...,10)` coercions that
the handlers apply to request fields are modelled by `jsNumber`/`jsParseInt` over a
small scalar type `JVal` (`missing` covers the `x != null && x !== ''` guards, `nan`
covers non-numeric input).  Timestamps are omitted: no verified property mentions them.
The random/time-based barcode generation loop of the create route is modelled by a
`gen` parameter holding the generated candidate code (the loop's postcondition — the
generated code is unused — becomes an explicit hypothesis where a theorem needs it).
-/

namespace Bookstore

/-- A JSON scalar as it reaches the numeric coercions of the route handlers:
`missing` is `null`/`undefined`/`''` (all guarded by `x != null && x !== ''`),
`nan` is a non-numeric string, `num q` is a numeric value. -/
inductive JVal where
  | missing
  | nan
  | num (q : ℚ)
deriving DecidableEq, Repr

/-- Truncation toward zero, the behaviour of JavaScript `parseInt` on a numeric
value (`parseInt(3.7,10) = 3`, `parseInt(-3.7,10) = -3`): the numerator t-divided
by the (positive) denominator. -/
def ratTrunc (q : ℚ) : Int := q.num.tdiv (q.den : Int)

/-- `x != null && x !== '' ? parseInt(x, 10) : 0`, with `none` for the `NaN` result. -/
def jsParseInt : JVal → Option Int
  | .missing => some 0
  | .nan => none
  | .num q => some (ratTrunc q)

/-- `x != null && x !== '' ? Number(x) : 0`, with `none` for the `NaN` result. -/
def jsNumber : JVal → Option ℚ
  | .missing => some 0
  | .nan => none
  | .num q => some q

/-- Drop leading whitespace characters. -/
def dropWhitespace : List Char → List Char
  | [] => []
  | c :: cs => if c.isWhitespace then dropWhitespace cs else c :: cs

/-- JavaScript `String.prototype.trim`: strip whitespace from both ends.
(A structural reimplementation over the character list.) -/
def jsTrim (s : String) : String :=
  ⟨(dropWhitespace (dropWhitespace s.data).reverse).reverse⟩

structure Book where
  id : Int
  barcode : String
  title : String
  author : String
  publisher : String
  shelf : String
  price : ℚ
  initial_qty : Int
  current_qty : Int
deriving DecidableEq, Repr

structure Seller where
  id : Int
  name : String
  barcode : String
deriving DecidableEq, Repr

/-- A stock movement; `type` is the literal string `"in"` or `"out"` as in the source. -/
structure Movement where
  id : Int
  type : String
  bookBarcode : String
  qty : Int
  note : String
deriving DecidableEq, Repr

structure Sale where
  id : Int
  bookBarcode : String
  sellerBarcode : String
  qty : Int
  total : ℚ
deriving DecidableEq, Repr

/-- The whole JSON document `db.json`. -/
structure Db where
  books : List Book
  sellers : List Seller
  stockMovements : List Movement
  sales : List Sale
deriving DecidableEq, Repr

/-- A route failure: HTTP status plus the message the handler sends. -/
structure ApiErr where
  status : Nat
  msg : String
deriving DecidableEq, Repr

/-- `xs.length ? Math.max(...ids) + 1 : 1` — the identifier allocator used inline by
every route that inserts a record. -/
def nextId : List Int → Int
  | [] => 1
  | x :: xs => xs.foldl max x + 1

/-- In-place mutation of the object returned by `Array.prototype.find`:
replace the first element satisfying `p` by its image under `f`. -/
def replaceFirst (p : α → Bool) (f : α → α) : List α → List α
  | [] => []
  | x :: xs => if p x then f x :: xs else x :: replaceFirst p f xs

/-- Request body of `POST /api/books` (create when `id` is absent/zero, update
otherwise).  String fields use `""` for a missing value, as the handler itself
normalises them with `x ? String(x).trim() : ''`-style coercions. -/
structure BookReq where
  id : Option Int
  barcode : String
  title : String
  author : String
  publisher : String
  shelf : String
  price : JVal
  initialQty : JVal
deriving DecidableEq, Repr

/-- `POST /api/books`: create or update a book.  `gen` is the candidate code produced
by the time/random generation loop (used only when no code is supplied on create). -/
def postBooks (gen : String) (req : BookReq) (db : Db) : Except ApiErr (Db × Book) :=
  let books := db.books
  if (jsTrim req.title) = "" then .error ⟨400, "חסר שם ספר"⟩ else
  let title := (jsTrim req.title)
  match jsNumber req.price with
  | none => .error ⟨400, "מחיר לא תקין"⟩
  | some price =>
    if price < 0 then .error ⟨400, "מחיר לא תקין"⟩ else
    match jsParseInt req.initialQty with
    | none => .error ⟨400, "כמות התחלתית לא תקינה"⟩
    | some initialQty =>
      if initialQty < 0 then .error ⟨400, "כמות התחלתית לא תקינה"⟩ else
      let barcode := (jsTrim req.barcode)
      if req.id.getD 0 = 0 then
        -- create
        if barcode ≠ "" ∧ books.any (fun b => b.barcode = barcode) then
          .error ⟨400, "כבר קיים ספר עם ברקוד זה"⟩
        else
          let code := if barcode = "" then gen else barcode
          let newBook : Book :=
            ⟨nextId (books.map Book.id), code, title, req.author, req.publisher,
              req.shelf, price, initialQty, initialQty⟩
          .ok ({ db with books := books ++ [newBook] }, newBook)
      else
        -- update
        let i := req.id.getD 0
        match books.find? (fun b => b.id = i) with
        | none => .error ⟨404, "ספר לא נמצא לעדכון"⟩
        | some existing =>
          if barcode ≠ "" ∧ barcode ≠ existing.barcode ∧
              books.any (fun b => b.barcode = barcode) then
            .error ⟨400, "כבר קיים ספר עם ברקוד זה"⟩
          else
            let newCode := if barcode = "" then existing.barcode else barcode
            let upd : Book → Book := fun b =>
              { b with title := title, author := req.author, publisher := req.publisher,
                       shelf := req.shelf, price := price, barcode := newCode }
            .ok ({ db with books := replaceFirst (fun b => b.id = i) upd books },
                 upd existing)

/-- `POST /api/books/delete`; `none` models a body whose `ids` is not an array. -/
def postBooksDelete (ids : Option (List Int)) (db : Db) : Except ApiErr (Db × Int) :=
  match ids with
  | none => .error ⟨400, "לא התקבלו ספרים למחיקה"⟩
  | some l =>
    if l.isEmpty then .error ⟨400, "לא התקבלו ספרים למחיקה"⟩ else
    let books' := db.books.filter (fun b => !(l.contains b.id))
    .ok ({ db with books := books' },
         (db.books.length : Int) - (books'.length : Int))

/-- `POST /api/stock/in`: incoming stock. -/
def postStockIn (barcodeIn : String) (qtyIn : JVal) (note : String) (db : Db) :
    Except ApiErr (Db × Book) :=
  let barcode := (jsTrim barcodeIn)
  match jsParseInt qtyIn with
  | none => .error ⟨400, "ברקוד או כמות לא תקינים"⟩
  | some qty =>
    if barcode = "" ∨ qty ≤ 0 then .error ⟨400, "ברקוד או כמות לא תקינים"⟩ else
    match db.books.find? (fun b => b.barcode = barcode) with
    | none => .error ⟨404, "ספר לא נמצא"⟩
    | some book =>
      let book' := { book with current_qty := book.current_qty + qty }
      let mId := nextId (db.stockMovements.map Movement.id)
      .ok ({ db with
              books := replaceFirst (fun b => b.barcode = barcode)
                (fun b => { b with current_qty := b.current_qty + qty }) db.books,
              stockMovements := db.stockMovements ++ [⟨mId, "in", barcode, qty, note⟩] },
            book')

/-- Response payload of a successful `POST /api/stock/sale`. -/
structure SaleResult where
  bookTitle : String
  sellerName : String
  qty : Int
  total : ℚ
deriving DecidableEq, Repr

/-- `POST /api/stock/sale`: single-book point-of-sale transaction. -/
def postStockSale (bookBarcodeIn sellerBarcodeIn : String) (qtyIn : JVal) (db : Db) :
    Except ApiErr (Db × SaleResult) :=
  let bookBarcode := (jsTrim bookBarcodeIn)
  let sellerBarcode := (jsTrim sellerBarcodeIn)
  match jsParseInt qtyIn with
  | none => .error ⟨400, "נתוני מכירה לא תקינים"⟩
  | some qty =>
    if bookBarcode = "" ∨ sellerBarcode = "" ∨ qty ≤ 0 then
      .error ⟨400, "נתוני מכירה לא תקינים"⟩
    else
    match db.books.find? (fun b => b.barcode = bookBarcode) with
    | none => .error ⟨404, "ספר לא נמצא"⟩
    | some book =>
      match db.sellers.find? (fun s => s.barcode = sellerBarcode) with
      | none => .error ⟨404, "מוכר לא נמצא"⟩
      | some seller =>
        if book.current_qty < qty then .error ⟨400, "אין מספיק מלאי למכירה"⟩ else
        let total := book.price * (qty : ℚ)
        let mId := nextId (db.stockMovements.map Movement.id)
        let sId := nextId (db.sales.map Sale.id)
        .ok ({ db with
                books := replaceFirst (fun b => b.barcode = bookBarcode)
                  (fun b => { b with current_qty := b.current_qty - qty }) db.books,
                stockMovements := db.stockMovements ++
                  [⟨mId, "out", bookBarcode, qty, "מכירה למוכר " ++ seller.name⟩],
                sales := db.sales ++ [⟨sId, bookBarcode, sellerBarcode, qty, total⟩] },
              ⟨book.title, seller.name, qty, total⟩)

/-- One line item of `POST /api/sales/quick`. -/
structure ItemReq where
  barcode : String
  qty : JVal
deriving DecidableEq, Repr

/-- Response payload of a successful `POST /api/sales/quick`. -/
structure QuickResult where
  totalAmount : ℚ
  totalQty : Int
  itemsCount : Nat
deriving DecidableEq, Repr

/-- Validation pass of the quick sale (`normalizedItems` in the source): resolve and
check every line item against the *unmutated* snapshot, aborting on the first failure.
`i` is the 0-based index used in the error messages. -/
def normalizeQuickItems (books : List Book) :
    List ItemReq → Nat → Except ApiErr (List (String × Int))
  | [], _ => .ok []
  | item :: rest, i =>
    let barcode := (jsTrim item.barcode)
    match jsParseInt item.qty with
    | none => .error ⟨400, s!"שורה {i + 1} בעסקה לא תקינה (ברקוד/כמות)"⟩
    | some qty =>
      if barcode = "" ∨ qty ≤ 0 then
        .error ⟨400, s!"שורה {i + 1} בעסקה לא תקינה (ברקוד/כמות)"⟩
      else
      match books.find? (fun b => b.barcode = barcode) with
      | none => .error ⟨404, s!"ספר עם ברקוד {barcode} לא נמצא"⟩
      | some book =>
        if book.current_qty < qty then
          .error ⟨400, "מלאי לא מספיק לספר \x27" ++ book.title ++ "\x27"⟩
        else
        match normalizeQuickItems books rest (i + 1) with
        | .error e => .error e
        | .ok tl => .ok ((barcode, qty) :: tl)

/-- Apply pass of the quick sale: for each validated item, decrement the (first)
book with that barcode, append one `out` movement and one sale, and accumulate the
running totals; movement/sale ids advance sequentially across the batch. -/
def applyQuickItems (sellerName sellerCode : String) :
    Int → Int → ℚ → Int → List (String × Int) → Db → Db × ℚ × Int
  | _, _, amt, tq, [], db => (db, amt, tq)
  | mId, sId, amt, tq, (barcode, qty) :: rest, db =>
    let price := ((db.books.find? (fun b => b.barcode = barcode)).map Book.price).getD 0
    let rowTotal := price * (qty : ℚ)
    let db' : Db :=
      { db with
        books := replaceFirst (fun b => b.barcode = barcode)
          (fun b => { b with current_qty := b.current_qty - qty }) db.books,
        stockMovements := db.stockMovements ++
          [⟨mId, "out", barcode, qty, "עסקה מהירה ממסך הבית למוכר " ++ sellerName⟩],
        sales := db.sales ++ [⟨sId, barcode, sellerCode, qty, rowTotal⟩] }
    applyQuickItems sellerName sellerCode (mId + 1) (sId + 1) (amt + rowTotal)
      (tq + qty) rest db'

/-- `POST /api/sales/quick`: multi-item sale, validate-all-then-apply.  `none` for
`items` models a body whose `items` is not an array. -/
def postSalesQuick (sellerBarcodeIn : String) (itemsIn : Option (List ItemReq))
    (db : Db) : Except ApiErr (Db × QuickResult) :=
  let sellerCode := (jsTrim sellerBarcodeIn)
  if sellerCode = "" then .error ⟨400, "חסר ברקוד מוכר"⟩ else
  match itemsIn with
  | none => .error ⟨400, "אין פריטים לעסקה"⟩
  | some items =>
    if items.isEmpty then .error ⟨400, "אין פריטים לעסקה"⟩ else
    match db.sellers.find? (fun s => s.barcode = sellerCode) with
    | none => .error ⟨404, "מוכר לא נמצא"⟩
    | some seller =>
      match normalizeQuickItems db.books items 0 with
      | .error e => .error e
      | .ok norm =>
        let mId := nextId (db.stockMovements.map Movement.id)
        let sId := nextId (db.sales.map Sale.id)
        let r := applyQuickItems seller.name sellerCode mId sId 0 0 norm db
        .ok (r.1, ⟨r.2.1, r.2.2, norm.length⟩)

/-- One row of the TSV import request. -/
structure Row where
  barcode : String
  title : String
  author : String
  publisher : String
  shelf : String
  price : JVal
  initialQty : JVal
deriving DecidableEq, Repr

/-- The mutable state of the import loop in `POST /api/import/books-tsv`. -/
structure ImpState where
  books : List Book
  movements : List Movement
  nextBookId : Int
  nextMoveId : Int
  insertedCount : Nat
  skippedExisting : Nat
  errors : List String
deriving DecidableEq, Repr

/-- Body of the per-row callback of the import loop; `i` is the 0-based row index. -/
def importRow (i : Nat) (row : Row) (s : ImpState) : ImpState :=
  let title := (jsTrim row.title)
  if title = "" then { s with errors := s.errors ++ [s!"שורה {i + 1}: חסר שם ספר"] } else
  let barcode := (jsTrim row.barcode)
  if barcode = "" then { s with errors := s.errors ++ [s!"שורה {i + 1}: חסר ברקוד"] } else
  if s.books.any (fun b => b.barcode = barcode) then
    { s with skippedExisting := s.skippedExisting + 1 }
  else
  match jsNumber row.price with
  | none => { s with errors := s.errors ++ [s!"שורה {i + 1}: מחיר לא תקין"] }
  | some price =>
    if price < 0 then { s with errors := s.errors ++ [s!"שורה {i + 1}: מחיר לא תקין"] } else
    match jsParseInt row.initialQty with
    | none => { s with errors := s.errors ++ [s!"שורה {i + 1}: כמות התחלתית לא תקינה"] }
    | some q =>
      if q < 0 then
        { s with errors := s.errors ++ [s!"שורה {i + 1}: כמות התחלתית לא תקינה"] }
      else
        let newBook : Book :=
          ⟨s.nextBookId, barcode, title, row.author, row.publisher, row.shelf, price, q, q⟩
        let s1 := { s with
                    books := s.books ++ [newBook],
                    nextBookId := s.nextBookId + 1 }
        let s2 :=
          if 0 < q then
            { s1 with
              movements := s1.movements ++
                [⟨s1.nextMoveId, "in", barcode, q, "ייבוא התחלתי"⟩],
              nextMoveId := s1.nextMoveId + 1 }
          else s1
        { s2 with insertedCount := s2.insertedCount + 1 }

/-- `rows.forEach(...)` of the import handler. -/
def importRows : Nat → List Row → ImpState → ImpState
  | _, [], s => s
  | i, r :: rs, s => importRows (i + 1) rs (importRow i r s)

/-- Response payload of `POST /api/import/books-tsv`. -/
structure ImportResult where
  insertedCount : Nat
  skippedExisting : Nat
  errors : List String
deriving DecidableEq, Repr

/-- `POST /api/import/books-tsv`; `none` models a body whose `rows` is not an array. -/
def postImportBooksTsv (rowsIn : Option (List Row)) (db : Db) :
    Except ApiErr (Db × ImportResult) :=
  match rowsIn with
  | none => .error ⟨400, "פורמט קלט לא תקין (rows)"⟩
  | some rows =>
    let s0 : ImpState :=
      ⟨db.books, db.stockMovements, nextId (db.books.map Book.id),
        nextId (db.stockMovements.map Movement.id), 0, 0, []⟩
    let s := importRows 0 rows s0
    .ok ({ db with books := s.books, stockMovements := s.movements },
         ⟨s.insertedCount, s.skippedExisting, s.errors⟩)

/-- The core operations of the engine (the write routes of the server). -/
inductive Op where
  | upsertBook (gen : String) (req : BookReq)
  | deleteBooks (ids : Option (List Int))
  | stockIn (barcode : String) (qty : JVal) (note : String)
  | sale (bookBarcode sellerBarcode : String) (qty : JVal)
  | saleQuick (sellerBarcode : String) (items : Option (List ItemReq))
  | importTsv (rows : Option (List Row))
deriving DecidableEq, Repr

/-- The snapshot after one route call: the saved document on success, the untouched
one on failure (failing handlers return before mutating and never call `saveDb`). -/
def stepDb : Except ApiErr (Db × α) → Db → Db
  | .ok p, _ => p.1
  | .error _, db => db

/-- The snapshot resulting from one core operation. -/
def runOp : Op → Db → Db
  | .upsertBook gen req, db => stepDb (postBooks gen req db) db
  | .deleteBooks ids, db => stepDb (postBooksDelete ids db) db
  | .stockIn bc q n, db => stepDb (postStockIn bc q n db) db
  | .sale b s q, db => stepDb (postStockSale b s q db) db
  | .saleQuick s its, db => stepDb (postSalesQuick s its db) db
  | .importTsv rows, db => stepDb (postImportBooksTsv rows db) db

/-- Signed ledger sum: total quantity of the movements of direction `t` that
reference book code `c`. -/
def msum (t c : String) : List Movement → Int
  | [] => 0
  | m :: ms => (if m.type = t ∧ m.bookBarcode = c then m.qty else 0) + msum t c ms

/-- The spec's ledger equation for one book:
`current_qty = initial_qty + Σ(in) − Σ(out)` over the movements of its code. -/
def ledgerOk (ms : List Movement) (b : Book) : Prop :=
  b.current_qty = b.initial_qty + msum "in" b.barcode ms - msum "out" b.barcode ms

instance (ms : List Movement) (b : Book) : Decidable (ledgerOk ms b) :=
  inferInstanceAs (Decidable (_ = _))

/-- The ledger invariant over a snapshot. -/
def invDb (db : Db) : Prop := ∀ b ∈ db.books, ledgerOk db.stockMovements b

instance (db : Db) : Decidable (invDb db) :=
  inferInstanceAs (Decidable (∀ b ∈ db.books, _))

/-- Well-formed snapshot: book codes are pairwise distinct. -/
def wfCodes (db : Db) : Prop := (db.books.map Book.barcode).Nodup

instance (db : Db) : Decidable (wfCodes db) :=
  inferInstanceAs (Decidable (List.Nodup _))

instance {ε α : Type} [DecidableEq ε] [DecidableEq α] : DecidableEq (Except ε α) :=
  fun a b =>
    match a, b with
    | .ok x, .ok y =>
      if h : x = y then .isTrue (h ▸ rfl) else .isFalse (fun hc => h (Except.ok.inj hc))
    | .error x, .error y =>
      if h : x = y then .isTrue (h ▸ rfl)
      else .isFalse (fun hc => h (Except.error.inj hc))
    | .ok _, .error _ => .isFalse (fun hc => Except.noConfusion hc)
    | .error _, .ok _ => .isFalse (fun hc => Except.noConfusion hc)

/-- The code a created book ends up with: the supplied one, or the generated
candidate when none is supplied. -/
def chosenCode (gen : String) (req : BookReq) : String :=
  if (jsTrim req.barcode) = "" then gen else (jsTrim req.barcode)

/-- Decidable per-item validity of a quick-sale line item against a book list:
non-empty code, parseable positive quantity, known book, sufficient stock.  This is
exactly the check the validation pass performs (against the unmutated snapshot). -/
def itemOkB (books : List Book) (it : ItemReq) : Bool :=
  match jsParseInt it.qty with
  | none => false
  | some q =>
    if (jsTrim it.barcode) = "" ∨ q ≤ 0 then false else
    match books.find? (fun b => b.barcode = (jsTrim it.barcode)) with
    | none => false
    | some b => decide (q ≤ b.current_qty)

/-! ## Generic helper lemmas -/

lemma ratTrunc_intCast (q : Int) : ratTrunc (q : ℚ) = q := by
  unfold ratTrunc
  rw [Rat.num_intCast, Rat.den_intCast]
  exact Int.tdiv_one q

lemma jsParseInt_intCast (q : Int) : jsParseInt (.num (q : ℚ)) = some q := by
  simp [jsParseInt, ratTrunc_intCast]

lemma msum_append (t c : String) (ms : List Movement) (m : Movement) :
    msum t c (ms ++ [m]) =
      msum t c ms + (if m.type = t ∧ m.bookBarcode = c then m.qty else 0) := by
  induction ms with
  | nil => simp [msum]
  | cons x xs ih =>
    rw [List.cons_append]
    simp only [msum]
    rw [ih]
    omega

lemma msum_append_mk (t c : String) (ms : List Movement) (i : Int) (t' c' : String)
    (q : Int) (note : String) :
    msum t c (ms ++ [⟨i, t', c', q, note⟩]) =
      msum t c ms + (if t' = t ∧ c' = c then q else 0) := by
  rw [msum_append]

lemma msum_eq_zero (t c : String) (ms : List Movement)
    (h : ∀ m ∈ ms, m.bookBarcode ≠ c) : msum t c ms = 0 := by
  induction ms with
  | nil => rfl
  | cons x xs ih =>
    have hx : x.bookBarcode ≠ c := h x (List.mem_cons_self x xs)
    simp only [msum, ih (fun m hm => h m (List.mem_cons_of_mem x hm))]
    simp [hx]

lemma replaceFirst_map (p : α → Bool) (f : α → α) (g : α → β)
    (h : ∀ a, p a = true → g (f a) = g a) :
    ∀ l : List α, (replaceFirst p f l).map g = l.map g := by
  intro l
  induction l with
  | nil => rfl
  | cons x xs ih =>
    by_cases hx : p x
    · simp [replaceFirst, hx, h x hx, ih]
    · simp [replaceFirst, hx, ih]

lemma replaceFirst_of_find? (p : α → Bool) (f : α → α) :
    ∀ (l : List α) (a : α), l.find? p = some a →
      ∃ l₁ l₂, l = l₁ ++ a :: l₂ ∧ replaceFirst p f l = l₁ ++ f a :: l₂ ∧
        (∀ x ∈ l₁, p x = false) ∧ p a = true := by
  intro l
  induction l with
  | nil => intro a h; simp at h
  | cons x xs ih =>
    intro a h
    by_cases hx : p x
    · rw [List.find?_cons_of_pos _ hx] at h
      cases h
      exact ⟨[], xs, by simp, by simp [replaceFirst, hx], by simp, hx⟩
    · rw [List.find?_cons_of_neg _ (by simpa using hx)] at h
      obtain ⟨l₁, l₂, hl, hrf, hall, hpa⟩ := ih a h
      refine ⟨x :: l₁, l₂, by simp [hl], by simp [replaceFirst, hx, hrf], ?_, hpa⟩
      intro y hy
      rcases List.mem_cons.mp hy with hy | hy
      · subst hy; simpa using hx
      · exact hall y hy

lemma find?_append_of_false (p : α → Bool) :
    ∀ (l₁ : List α), (∀ x ∈ l₁, p x = false) →
      ∀ l₂ : List α, (l₁ ++ l₂).find? p = l₂.find? p := by
  intro l₁
  induction l₁ with
  | nil => intro _ l₂; rfl
  | cons x xs ih =>
    intro h l₂
    have hx : ¬ p x = true := by simp [h x (List.mem_cons_self x xs)]
    rw [List.cons_append, List.find?_cons_of_neg _ hx]
    exact ih (fun y hy => h y (List.mem_cons_of_mem x hy)) l₂

lemma length_filter_add_length_filter_not (p : α → Bool) :
    ∀ l : List α, (l.filter p).length + (l.filter (fun a => !(p a))).length = l.length := by
  intro l
  induction l with
  | nil => rfl
  | cons x xs ih =>
    by_cases hx : p x
    · simp [List.filter, hx, ih]; omega
    · simp only [List.filter]
      rw [show p x = false by simpa using hx]
      simp only [Bool.not_false, List.length_cons]
      omega

lemma foldl_max_mem : ∀ (xs : List Int) (x : Int), xs.foldl max x ∈ x :: xs := by
  intro xs
  induction xs with
  | nil => intro x; simp [List.foldl]
  | cons y ys ih =>
    intro x
    have h := ih (max x y)
    rcases List.mem_cons.mp h with h | h
    · rcases max_choice x y with hm | hm <;> rw [List.foldl] <;> rw [h, hm] <;> simp
    · simp [List.foldl, List.mem_cons, h]

lemma le_foldl_max : ∀ (xs : List Int) (x y : Int), y ∈ x :: xs → y ≤ xs.foldl max x := by
  intro xs
  induction xs with
  | nil => intro x y hy; simp at hy; simp [hy, List.foldl]
  | cons z zs ih =>
    intro x y hy
    rw [List.foldl]
    rcases List.mem_cons.mp hy with hy | hy
    · exact le_trans (hy ▸ le_max_left x z) (ih (max x z) _ (List.mem_cons_self _ _))
    · rcases List.mem_cons.mp hy with hy | hy
      · exact le_trans (hy ▸ le_max_right x z) (ih (max x z) _ (List.mem_cons_self _ _))
      · exact ih (max x z) y (List.mem_cons_of_mem _ hy)

lemma mem_replaceFirst (p : α → Bool) (f : α → α) :
    ∀ l, ∀ b ∈ replaceFirst p f l, b ∈ l ∨ ∃ a ∈ l, p a = true ∧ b = f a := by
  intro l
  induction l with
  | nil => intro b hb; simp [replaceFirst] at hb
  | cons x xs ih =>
    intro b hb
    by_cases hx : p x
    · simp only [replaceFirst, if_pos hx] at hb
      rcases List.mem_cons.mp hb with hb | hb
      · exact Or.inr ⟨x, List.mem_cons_self x xs, hx, hb⟩
      · exact Or.inl (List.mem_cons_of_mem x hb)
    · simp only [replaceFirst, if_neg hx] at hb
      rcases List.mem_cons.mp hb with hb | hb
      · exact Or.inl (hb ▸ List.mem_cons_self x xs)
      · rcases ih b hb with h | ⟨a, ha, hpa, hfa⟩
        · exact Or.inl (List.mem_cons_of_mem x h)
        · exact Or.inr ⟨a, List.mem_cons_of_mem x ha, hpa, hfa⟩

/-- The heart of the ledger invariant: appending one movement of direction `t`
(`"in"` or `"out"`) for code `c` while adjusting the first book of code `c` by the
matching delta `d` preserves the per-book ledger equation, provided book codes are
pairwise distinct. -/
lemma ledgerOk_step (c t note : String) (q i : Int) (f : Book → Book)
    (hfc : ∀ a, (f a).barcode = a.barcode)
    (hfi : ∀ a, (f a).initial_qty = a.initial_qty)
    (ht : (t = "in" ∧ ∀ a, (f a).current_qty = a.current_qty + q) ∨
          (t = "out" ∧ ∀ a, (f a).current_qty = a.current_qty - q)) :
    ∀ (books : List Book) (ms : List Movement),
      (books.map Book.barcode).Nodup →
      (∀ b ∈ books, ledgerOk ms b) →
      ∀ b ∈ replaceFirst (fun x => x.barcode = c) f books,
        ledgerOk (ms ++ [⟨i, t, c, q, note⟩]) b := by
  have hio : ("in" : String) ≠ "out" := by decide
  intro books
  induction books with
  | nil => intro ms _ _ b hb; simp [replaceFirst] at hb
  | cons x xs ih =>
    intro ms hwf hinv b hb
    rw [List.map_cons, List.nodup_cons] at hwf
    by_cases hx : x.barcode = c
    · rw [replaceFirst, if_pos (by simpa using hx)] at hb
      rcases List.mem_cons.mp hb with hb | hb
      · subst hb
        have hx0 := hinv x (List.mem_cons_self _ _)
        unfold ledgerOk at hx0 ⊢
        rw [hx] at hx0
        rcases ht with ⟨ht1, hfq⟩ | ⟨ht1, hfq⟩ <;> subst ht1
        · rw [hfc, hfi, hfq, msum_append_mk, msum_append_mk, hx]
          rw [if_pos (show ("in" : String) = "in" ∧ c = c from ⟨rfl, rfl⟩),
            if_neg (show ¬(("in" : String) = "out" ∧ c = c) from fun hctr => hio hctr.1)]
          omega
        · rw [hfc, hfi, hfq, msum_append_mk, msum_append_mk, hx]
          rw [if_neg (show ¬(("out" : String) = "in" ∧ c = c) from
              fun hctr => hio hctr.1.symm),
            if_pos (show ("out" : String) = "out" ∧ c = c from ⟨rfl, rfl⟩)]
          omega
      · have hbc : b.barcode ≠ c := by
          intro hbc
          apply hwf.1
          rw [hx, ← hbc]
          exact List.mem_map_of_mem Book.barcode hb
        have hb0 := hinv b (List.mem_cons_of_mem x hb)
        unfold ledgerOk at hb0 ⊢
        rw [msum_append_mk, msum_append_mk,
          if_neg (fun hctr => hbc hctr.2.symm), if_neg (fun hctr => hbc hctr.2.symm)]
        omega
    · rw [replaceFirst, if_neg (by simpa using hx)] at hb
      rcases List.mem_cons.mp hb with hb | hb
      · subst hb
        have hb0 := hinv b (List.mem_cons_self _ _)
        unfold ledgerOk at hb0 ⊢
        rw [msum_append_mk, msum_append_mk,
          if_neg (fun hctr => hx hctr.2.symm), if_neg (fun hctr => hx hctr.2.symm)]
        omega
      · exact ih ms hwf.2 (fun y hy => hinv y (List.mem_cons_of_mem x hy)) b hb

/-- The apply pass of the quick sale preserves distinct codes and the ledger
invariant (it appends exactly one matching `out` movement per decrement). -/
lemma applyQuickItems_wf_inv (sn sc : String) :
    ∀ (norm : List (String × Int)) (mId sId : Int) (amt : ℚ) (tq : Int) (db : Db),
      wfCodes db → invDb db →
      wfCodes (applyQuickItems sn sc mId sId amt tq norm db).1 ∧
        invDb (applyQuickItems sn sc mId sId amt tq norm db).1 := by
  intro norm
  induction norm with
  | nil => intro mId sId amt tq db hwf hinv; exact ⟨hwf, hinv⟩
  | cons it rest ih =>
    obtain ⟨bc, q⟩ := it
    intro mId sId amt tq db hwf hinv
    rw [applyQuickItems]
    apply ih
    · unfold wfCodes at hwf ⊢
      dsimp only
      rw [replaceFirst_map (fun b => decide (b.barcode = bc))
        (fun b => { b with current_qty := b.current_qty - q }) Book.barcode
        (fun a _ => rfl)]
      exact hwf
    · intro b hb
      dsimp only at hb ⊢
      exact ledgerOk_step bc "out" _ q mId
        (fun b => { b with current_qty := b.current_qty - q })
        (fun a => rfl) (fun a => rfl)
        (Or.inr ⟨rfl, fun a => rfl⟩) db.books db.stockMovements hwf hinv b hb

/-! ## Per-operation preservation of the ledger invariant -/

lemma invDb_stockIn {bc : String} {q : JVal} {n : String} {db db' : Db} {r : Book}
    (h : postStockIn bc q n db = .ok (db', r))
    (hwf : wfCodes db) (hinv : invDb db) : invDb db' := by
  simp only [postStockIn] at h
  split at h
  · exact absurd h (by simp)
  · split at h
    · exact absurd h (by simp)
    · split at h
      · exact absurd h (by simp)
      · simp only [Except.ok.injEq, Prod.mk.injEq] at h
        obtain ⟨h1, _⟩ := h
        subst h1
        intro b hb
        dsimp only at hb ⊢
        refine ledgerOk_step _ _ _ _ _ _ ?_ ?_ (Or.inl ⟨rfl, ?_⟩)
          db.books db.stockMovements hwf hinv b hb
        · exact fun a => rfl
        · exact fun a => rfl
        · exact fun a => rfl

lemma invDb_sale {bc sc : String} {q : JVal} {db db' : Db} {r : SaleResult}
    (h : postStockSale bc sc q db = .ok (db', r))
    (hwf : wfCodes db) (hinv : invDb db) : invDb db' := by
  simp only [postStockSale] at h
  split at h
  · exact absurd h (by simp)
  · split at h
    · exact absurd h (by simp)
    · split at h
      · exact absurd h (by simp)
      · split at h
        · exact absurd h (by simp)
        · split at h
          · exact absurd h (by simp)
          · simp only [Except.ok.injEq, Prod.mk.injEq] at h
            obtain ⟨h1, _⟩ := h
            subst h1
            intro b hb
            dsimp only at hb ⊢
            refine ledgerOk_step _ _ _ _ _ _ ?_ ?_ (Or.inr ⟨rfl, ?_⟩)
              db.books db.stockMovements hwf hinv b hb
            · exact fun a => rfl
            · exact fun a => rfl
            · exact fun a => rfl

lemma invDb_salesQuick {sc : String} {its : Option (List ItemReq)} {db db' : Db}
    {r : QuickResult} (h : postSalesQuick sc its db = .ok (db', r))
    (hwf : wfCodes db) (hinv : invDb db) : invDb db' := by
  simp only [postSalesQuick] at h
  split at h
  · exact absurd h (by simp)
  · split at h
    · exact absurd h (by simp)
    · split at h
      · exact absurd h (by simp)
      · split at h
        · exact absurd h (by simp)
        · split at h
          · exact absurd h (by simp)
          · simp only [Except.ok.injEq, Prod.mk.injEq] at h
            obtain ⟨h1, _⟩ := h
            subst h1
            exact (applyQuickItems_wf_inv _ _ _ _ _ _ _ _ hwf hinv).2

lemma invDb_delete {ids : Option (List Int)} {db db' : Db} {n : Int}
    (h : postBooksDelete ids db = .ok (db', n)) (hinv : invDb db) : invDb db' := by
  simp only [postBooksDelete] at h
  split at h
  · exact absurd h (by simp)
  · split at h
    · exact absurd h (by simp)
    · simp only [Except.ok.injEq, Prod.mk.injEq] at h
      obtain ⟨h1, _⟩ := h
      subst h1
      intro b hb
      dsimp only at hb ⊢
      exact hinv b (List.mem_filter.mp hb).1

lemma invDb_postBooks_create {gen : String} {req : BookReq} {db db' : Db} {bk : Book}
    (h : postBooks gen req db = .ok (db', bk))
    (hid : req.id.getD 0 = 0)
    (hmov : ∀ m ∈ db.stockMovements, m.bookBarcode ≠ chosenCode gen req)
    (hinv : invDb db) : invDb db' := by
  unfold chosenCode at hmov
  simp only [postBooks] at h
  split at h
  · exact absurd h (by simp)
  · split at h
    · exact absurd h (by simp)
    · split at h
      · exact absurd h (by simp)
      · split at h
        · exact absurd h (by simp)
        · split at h
          · exact absurd h (by simp)
          · split at h
            · exact absurd h (by simp)
            · simp only [Except.ok.injEq, Prod.mk.injEq] at h
              obtain ⟨h1, _⟩ := h
              subst h1
              intro b hb
              dsimp only at hb ⊢
              rcases List.mem_append.mp hb with hb | hb
              · exact hinv b hb
              · rw [List.mem_singleton] at hb
                subst hb
                unfold ledgerOk
                dsimp only
                rw [msum_eq_zero _ _ _ hmov, msum_eq_zero _ _ _ hmov]
                omega

lemma invDb_postBooks_update {gen : String} {req : BookReq} {db db' : Db} {bk : Book}
    (h : postBooks gen req db = .ok (db', bk))
    (hid : req.id.getD 0 ≠ 0) (hbar : (jsTrim req.barcode) = "")
    (hinv : invDb db) : invDb db' := by
  simp only [postBooks] at h
  split at h
  · exact absurd h (by simp)
  · split at h
    · exact absurd h (by simp)
    · split at h
      · exact absurd h (by simp)
      · split at h
        · exact absurd h (by simp)
        · split at h
          · exact absurd h (by simp)
          · split at h
            · exact absurd h (by simp)
            · rename_i existing hfind
              split at h
              · exact absurd h (by simp)
              · simp only [Except.ok.injEq, Prod.mk.injEq] at h
                obtain ⟨h1, _⟩ := h
                subst h1
                intro b hb
                dsimp only at hb ⊢
                obtain ⟨l₁, l₂, hl, hrf, _, _⟩ :=
                  replaceFirst_of_find? _ _ db.books existing hfind
                rw [hrf] at hb
                rcases List.mem_append.mp hb with hb | hb
                · exact hinv b (hl ▸ List.mem_append_left _ hb)
                · rcases List.mem_cons.mp hb with hb | hb
                  · subst hb
                    have hex : ledgerOk db.stockMovements existing :=
                      hinv existing (hl ▸ List.mem_append_right _
                        (List.mem_cons_self _ _))
                    unfold ledgerOk at hex ⊢
                    dsimp only
                    exact hex
                  · exact hinv b (hl ▸ List.mem_append_right _
                      (List.mem_cons_of_mem _ hb))

lemma find?_replaceFirst (p : α → Bool) (f : α → α)
    (hf : ∀ a, p a = true → p (f a) = true) (l : List α) (a : α)
    (h : l.find? p = some a) : (replaceFirst p f l).find? p = some (f a) := by
  obtain ⟨l₁, l₂, _, hrf, hfalse, hpa⟩ := replaceFirst_of_find? p f l a h
  rw [hrf, find?_append_of_false p l₁ hfalse, List.find?_cons_of_pos _ (hf a hpa)]

/-- If any line item fails the per-item check (against the unmutated snapshot),
the validation pass of the quick sale returns an error. -/
lemma normalizeQuickItems_err (books : List Book) :
    ∀ (items : List ItemReq) (i : Nat),
      (∃ it ∈ items, itemOkB books it = false) →
      ∃ e, normalizeQuickItems books items i = .error e := by
  intro items
  induction items with
  | nil =>
    intro i h
    rcases h with ⟨it, hmem, _⟩
    simp at hmem
  | cons item rest ih =>
    intro i h
    rcases hq : jsParseInt item.qty with _ | q
    · exact ⟨_, by rw [normalizeQuickItems, hq]⟩
    · by_cases hbq : (jsTrim item.barcode) = "" ∨ q ≤ 0
      · exact ⟨_, by rw [normalizeQuickItems, hq]; dsimp only; rw [if_pos hbq]⟩
      · rcases hf : books.find? (fun b => b.barcode = (jsTrim item.barcode)) with _ | b
        · exact ⟨_, by rw [normalizeQuickItems, hq]; dsimp only; rw [if_neg hbq, hf]⟩
        · by_cases hstock : b.current_qty < q
          · exact ⟨_, by
              rw [normalizeQuickItems, hq]
              dsimp only
              rw [if_neg hbq, hf]
              dsimp only
              rw [if_pos hstock]⟩
          · have hok : itemOkB books item = true := by
              unfold itemOkB
              rw [hq]
              dsimp only
              rw [if_neg hbq, hf]
              dsimp only
              exact decide_eq_true (by omega)
            have hrest : ∃ it ∈ rest, itemOkB books it = false := by
              rcases h with ⟨it, hmem, hfalse⟩
              rcases List.mem_cons.mp hmem with hmem | hmem
              · subst hmem; rw [hok] at hfalse; cases hfalse
              · exact ⟨it, hmem, hfalse⟩
            obtain ⟨e, he⟩ := ih (i + 1) hrest
            refine ⟨e, ?_⟩
            rw [normalizeQuickItems, hq]
            dsimp only
            rw [if_neg hbq, hf]
            dsimp only
            rw [if_neg hstock, he]

/-! ## Concrete snapshots used by witnesses and counterexamples -/

/-- The default empty document, as created on first load. -/
def dbEmpty : Db := ⟨[], [], [], []⟩

def w8db : Db :=
  ⟨[⟨1, "A", "T1", "", "", "", 5, 1, 1⟩, ⟨2, "B", "T2", "", "", "", 5, 1, 1⟩], [], [], []⟩

def w9db : Db :=
  ⟨[⟨5, "P", "T", "", "", "", 1, 0, 0⟩, ⟨2, "Q", "T2", "", "", "", 1, 0, 0⟩], [], [], []⟩

def w9req : BookReq := ⟨none, "R", "New", "", "", "", .missing, .missing⟩

def w9bk : Book := ⟨6, "R", "New", "", "", "", 0, 0, 0⟩

def w9db' : Db := { w9db with books := w9db.books ++ [w9bk] }

/-! ## Claim theorems -/

/-- C9: for every collection, the next allocated identifier is 1 when the collection
is empty and the maximum existing identifier plus 1 otherwise (so it is strictly
above every existing identifier and one above a present one); it is recomputed from
the current snapshot on each intent — in particular a created book's identifier is
`nextId` of the id column of the snapshot the request runs against. -/
theorem c9_nextId_allocator :
    nextId ([] : List Int) = 1 ∧
    (∀ l : List Int, l ≠ [] → (nextId l - 1) ∈ l ∧ ∀ x ∈ l, x < nextId l) ∧
    (∀ (gen : String) (req : BookReq) (db db' : Db) (bk : Book),
      req.id.getD 0 = 0 → postBooks gen req db = .ok (db', bk) →
      bk.id = nextId (db.books.map Book.id)) := by
  refine ⟨rfl, ?_, ?_⟩
  · intro l hl
    match l with
    | x :: xs =>
      constructor
      · have h := foldl_max_mem xs x
        simp only [nextId]
        simpa using h
      · intro y hy
        have h := le_foldl_max xs x y hy
        simp only [nextId]
        omega
  · intro gen req db db' bk hid h
    simp only [postBooks] at h
    split at h
    · exact absurd h (by simp)
    · split at h
      · exact absurd h (by simp)
      · split at h
        · exact absurd h (by simp)
        · split at h
          · exact absurd h (by simp)
          · split at h
            · exact absurd h (by simp)
            · split at h
              · exact absurd h (by simp)
              · simp only [Except.ok.injEq, Prod.mk.injEq] at h
                obtain ⟨_, h2⟩ := h
                subst h2
                rfl

/-- C9 witness: `nextId` evaluated on the concrete list `[3, 1]` (maximum 3, so the
next id is 4), and a concrete create against a snapshot whose maximum id is 5
allocates id 6. -/
theorem c9_witness :
    ((nextId [3, 1] - 1) ∈ [3, 1] ∧ ∀ x ∈ [3, 1], x < nextId [3, 1]) ∧
    w9bk.id = nextId (w9db.books.map Book.id) :=
  ⟨c9_nextId_allocator.2.1 [3, 1] (by decide),
   c9_nextId_allocator.2.2 "G" w9req w9db w9db' w9bk (by decide) (by decide)⟩

/-- C10: calling the book-deletion route with an empty list (or a body whose `ids`
is not a list) fails with the validation error rather than succeeding with
`deletedCount` 0, and leaves the snapshot unchanged. -/
theorem c10_delete_rejects_empty (db : Db) :
    postBooksDelete (some []) db = .error ⟨400, "לא התקבלו ספרים למחיקה"⟩ ∧
    postBooksDelete none db = .error ⟨400, "לא התקבלו ספרים למחיקה"⟩ ∧
    runOp (.deleteBooks (some [])) db = db ∧
    runOp (.deleteBooks none) db = db :=
  ⟨rfl, rfl, rfl, rfl⟩

/-- C8: for every non-empty id list, deletion succeeds, removes exactly the books
whose identifier occurs in the list (ids matching no book are ignored), leaves the
other collections untouched, and reports `deletedCount` equal to the number of books
removed. -/
theorem c8_deleteBooks_spec (db : Db) (ids : List Int) (h : ids ≠ []) :
    postBooksDelete (some ids) db =
      .ok ({ db with books := db.books.filter (fun b => !(ids.contains b.id)) },
        ((db.books.filter (fun b => ids.contains b.id)).length : Int)) := by
  match ids, h with
  | x :: xs, _ =>
    unfold postBooksDelete
    dsimp only
    rw [if_neg (by simp)]
    have hlen := length_filter_add_length_filter_not
      (fun b => (x :: xs).contains b.id) db.books
    simp only [Except.ok.injEq, Prod.mk.injEq]
    exact ⟨trivial, by omega⟩

/-- C8 witness: deleting ids `[1, 99]` from a two-book snapshot (ids 1 and 2)
removes exactly book 1, ignores the unknown id 99, and returns `deletedCount` 1. -/
theorem c8_witness :
    postBooksDelete (some [1, 99]) w8db =
      .ok ({ w8db with books := w8db.books.filter (fun b => !([1, 99].contains b.id)) },
        ((w8db.books.filter (fun b => [1, 99].contains b.id)).length : Int)) ∧
    (w8db.books.filter (fun b => !([1, 99].contains b.id))).map Book.id = [2] ∧
    ((w8db.books.filter (fun b => [1, 99].contains b.id)).length : Int) = 1 :=
  ⟨c8_deleteBooks_spec w8db [1, 99] (by decide), by decide, by decide⟩

lemma forall₂_refl_append {R : α → α → Prop} (l₁ l₂ : List α) (a b : α)
    (hrefl : ∀ x, R x x) (hab : R a b) :
    List.Forall₂ R (l₁ ++ a :: l₂) (l₁ ++ b :: l₂) := by
  induction l₁ with
  | nil =>
    refine List.Forall₂.cons hab ?_
    induction l₂ with
    | nil => exact List.Forall₂.nil
    | cons y ys ih => exact List.Forall₂.cons (hrefl y) ih
  | cons x xs ih => exact List.Forall₂.cons (hrefl x) ih

def w7db : Db :=
  ⟨[⟨1, "X", "T1", "a1", "p1", "s1", 5, 2, 2⟩, ⟨2, "Y", "T2", "", "", "", 5, 3, 3⟩],
   [⟨1, "N", "S"⟩], [⟨1, "in", "X", 1, "n"⟩], [⟨1, "X", "S", 1, 5⟩]⟩

def w7req : BookReq := ⟨some 1, "", "NewT", "a", "p", "s", .num 7, .missing⟩

def w7bk : Book := ⟨1, "X", "NewT", "a", "p", "s", 7, 2, 2⟩

def w7db' : Db := { w7db with books := [w7bk, ⟨2, "Y", "T2", "", "", "", 5, 3, 3⟩] }

/-- C7: a successful update of an existing book by identifier never changes any
book's `initial_qty` or `current_qty`, keeps the prior code when the supplied code
is omitted or empty, leaves every book with a different identifier untouched, and
leaves the sellers, movement and sale collections untouched. -/
theorem c7_update_frame (gen : String) (req : BookReq) (db db' : Db) (bk : Book)
    (hid : req.id.getD 0 ≠ 0)
    (h : postBooks gen req db = .ok (db', bk)) :
    db'.sellers = db.sellers ∧ db'.stockMovements = db.stockMovements ∧
    db'.sales = db.sales ∧
    db'.books.map Book.initial_qty = db.books.map Book.initial_qty ∧
    db'.books.map Book.current_qty = db.books.map Book.current_qty ∧
    (jsTrim req.barcode = "" →
      db'.books.map Book.barcode = db.books.map Book.barcode) ∧
    List.Forall₂ (fun b b' => b.id ≠ req.id.getD 0 → b' = b) db.books db'.books := by
  simp only [postBooks] at h
  split at h
  · exact absurd h (by simp)
  · split at h
    · exact absurd h (by simp)
    · split at h
      · exact absurd h (by simp)
      · split at h
        · exact absurd h (by simp)
        · split at h
          · exact absurd h (by simp)
          · split at h
            · exact absurd h (by simp)
            · rename_i existing hfind
              split at h
              · exact absurd h (by simp)
              · simp only [Except.ok.injEq, Prod.mk.injEq] at h
                obtain ⟨h1, _⟩ := h
                subst h1
                obtain ⟨l₁, l₂, hl, hrf, _, hpa⟩ :=
                  replaceFirst_of_find? _ _ db.books existing hfind
                refine ⟨rfl, rfl, rfl, ?_, ?_, ?_, ?_⟩
                · dsimp only
                  refine replaceFirst_map _ _ Book.initial_qty ?_ db.books
                  exact fun a _ => rfl
                · dsimp only
                  refine replaceFirst_map _ _ Book.current_qty ?_ db.books
                  exact fun a _ => rfl
                · intro hbar
                  rw [hrf]
                  conv_rhs => rw [hl]
                  simp only [List.map_append, List.map_cons]
                  rw [if_pos hbar]
                · rw [hrf]
                  conv_lhs => rw [hl]
                  refine forall₂_refl_append l₁ l₂ existing _ (fun x _ => rfl) ?_
                  intro hne
                  exact absurd (of_decide_eq_true hpa) hne

/-- C7 witness: updating book id 1 of a concrete two-book snapshot (new title,
author, price, empty code) keeps both quantity columns, both codes, book 2, and the
movement/sale/seller collections exactly as they were. -/
theorem c7_witness :
    w7db'.sellers = w7db.sellers ∧ w7db'.stockMovements = w7db.stockMovements ∧
    w7db'.sales = w7db.sales ∧
    w7db'.books.map Book.initial_qty = w7db.books.map Book.initial_qty ∧
    w7db'.books.map Book.current_qty = w7db.books.map Book.current_qty ∧
    (jsTrim w7req.barcode = "" →
      w7db'.books.map Book.barcode = w7db.books.map Book.barcode) ∧
    List.Forall₂ (fun b b' => b.id ≠ w7req.id.getD 0 → b' = b) w7db.books w7db'.books :=
  c7_update_frame "G" w7req w7db w7db' w7bk (by decide) (by decide)

def c4zdb : Db := ⟨[⟨1, "A", "T", "", "", "", 10, 0, 0⟩], [⟨1, "N", "S"⟩], [], []⟩

/-- C4 counterexample: the claim as stated also covers a request whose quantity 0
equals the book's current quantity 0 (book and seller both exist), but the sale
then does NOT succeed — the route rejects it with the generic validation error
(`qty <= 0`), so the success half of the claim is false without a positivity
restriction. -/
theorem c4_counterexample :
    postStockSale "A" "S" (.num ((0 : Int) : ℚ)) c4zdb =
      .error ⟨400, "נתוני מכירה לא תקינים"⟩ := by decide

/-- C4 (amended): for a sale request with positive quantity `q` whose (trimmed)
codes resolve to book `b` and an existing seller: if `q` equals `b`'s current
quantity the sale succeeds, the returned total is the currently stored price times
`q`, and the book's quantity becomes 0; if `q` exceeds the current quantity the
route fails with the insufficient-stock error and the snapshot is unchanged. -/
theorem c4_amended_sale (db : Db) (bc sc : String) (b : Book) (s : Seller) (q : Int)
    (hb : db.books.find? (fun x => x.barcode = jsTrim bc) = some b)
    (hs : db.sellers.find? (fun x => x.barcode = jsTrim sc) = some s)
    (hbc : jsTrim bc ≠ "") (hsc : jsTrim sc ≠ "") (hq : 0 < q) :
    (q = b.current_qty →
      ∃ db2, postStockSale bc sc (.num (q : ℚ)) db =
          .ok (db2, ⟨b.title, s.name, q, b.price * (q : ℚ)⟩) ∧
        db2.books.find? (fun x => x.barcode = jsTrim bc) =
          some { b with current_qty := 0 }) ∧
    (b.current_qty < q →
      postStockSale bc sc (.num (q : ℚ)) db = .error ⟨400, "אין מספיק מלאי למכירה"⟩ ∧
      runOp (.sale bc sc (.num (q : ℚ))) db = db) := by
  have hcond : ¬(jsTrim bc = "" ∨ jsTrim sc = "" ∨ q ≤ 0) := by
    rintro (hc | hc | hc)
    · exact hbc hc
    · exact hsc hc
    · omega
  constructor
  · intro hqe
    unfold postStockSale
    rw [jsParseInt_intCast]
    dsimp only
    rw [if_neg hcond, hb]
    dsimp only
    rw [hs]
    dsimp only
    rw [if_neg (by omega)]
    refine ⟨_, rfl, ?_⟩
    have hfr := find?_replaceFirst (fun x => decide (x.barcode = jsTrim bc))
      (fun x => { x with current_qty := x.current_qty - q })
      (fun a ha => ha) db.books b hb
    dsimp only
    rw [hfr]
    dsimp only
    rw [show b.current_qty - q = (0 : Int) by omega]
  · intro hlt
    have herr : postStockSale bc sc (.num (q : ℚ)) db =
        .error ⟨400, "אין מספיק מלאי למכירה"⟩ := by
      unfold postStockSale
      rw [jsParseInt_intCast]
      dsimp only
      rw [if_neg hcond, hb]
      dsimp only
      rw [hs]
      dsimp only
      rw [if_pos hlt]
    exact ⟨herr, by simp only [runOp, herr, stepDb]⟩

def w4db : Db := ⟨[⟨1, "A", "T", "", "", "", 10, 4, 4⟩], [⟨1, "N", "S"⟩], [], []⟩

def w4bk : Book := ⟨1, "A", "T", "", "", "", 10, 4, 4⟩

/-- C4 witness: on a concrete snapshot with 4 copies at price 10, selling exactly 4
succeeds with total 40 and leaves quantity 0, and selling 5 fails with the
insufficient-stock error leaving the snapshot unchanged. -/
theorem c4_witness :
    (∃ db2, postStockSale "A" "S" (.num ((4 : Int) : ℚ)) w4db =
        .ok (db2, ⟨w4bk.title, "N", 4, w4bk.price * ((4 : Int) : ℚ)⟩) ∧
      db2.books.find? (fun x => x.barcode = jsTrim "A") =
        some { w4bk with current_qty := 0 }) ∧
    postStockSale "A" "S" (.num ((5 : Int) : ℚ)) w4db =
      .error ⟨400, "אין מספיק מלאי למכירה"⟩ ∧
    runOp (.sale "A" "S" (.num ((5 : Int) : ℚ))) w4db = w4db :=
  ⟨(c4_amended_sale w4db "A" "S" w4bk ⟨1, "N", "S"⟩ 4 (by decide) (by decide)
      (by decide) (by decide) (by decide)).1 (by decide),
   (c4_amended_sale w4db "A" "S" w4bk ⟨1, "N", "S"⟩ 5 (by decide) (by decide)
      (by decide) (by decide) (by decide)).2 (by decide)⟩

/-- The rational 7/2, built directly in lowest terms. -/
def sevenHalves : ℚ := ⟨7, 2, by decide, by decide⟩

/-- C5 counterexample: `createBook` does NOT reject a non-integer initial quantity.
With the empty snapshot, a create request with `initialQty = 7/2 = 3.5` is
accepted — `parseInt` truncates it to 3 — so the claim's "rejects ... when the
initial quantity is ... not an integer" is false. -/
theorem c5_counterexample :
    (postBooks "G1" ⟨none, "C5", "T", "", "", "", .num 0, .num sevenHalves⟩
        dbEmpty).toOption.map (fun p => (p.2.initial_qty, p.2.current_qty)) =
      some (3, 3) := by decide

/-- C5 (amended): `createBook` rejects with the title validation error when the
trimmed title is empty; with the price validation error when the price is
non-numeric or negative; with the quantity validation error when the initial
quantity is non-numeric or parses to a negative integer (a non-integer numeric
value is truncated toward zero and accepted, not rejected); and with the conflict
error when a caller-supplied code equals an existing book's code.  Every rejection
returns before mutating, so the snapshot is unchanged. -/
theorem c5_amended_createBook (gen : String) (req : BookReq) (db : Db) :
    (jsTrim req.title = "" → postBooks gen req db = .error ⟨400, "חסר שם ספר"⟩) ∧
    (jsTrim req.title ≠ "" → jsNumber req.price = none →
      postBooks gen req db = .error ⟨400, "מחיר לא תקין"⟩) ∧
    (∀ p, jsTrim req.title ≠ "" → jsNumber req.price = some p → p < 0 →
      postBooks gen req db = .error ⟨400, "מחיר לא תקין"⟩) ∧
    (∀ p, jsTrim req.title ≠ "" → jsNumber req.price = some p → ¬ p < 0 →
      jsParseInt req.initialQty = none →
      postBooks gen req db = .error ⟨400, "כמות התחלתית לא תקינה"⟩) ∧
    (∀ p n, jsTrim req.title ≠ "" → jsNumber req.price = some p → ¬ p < 0 →
      jsParseInt req.initialQty = some n → n < 0 →
      postBooks gen req db = .error ⟨400, "כמות התחלתית לא תקינה"⟩) ∧
    (∀ p n, jsTrim req.title ≠ "" → jsNumber req.price = some p → ¬ p < 0 →
      jsParseInt req.initialQty = some n → ¬ n < 0 → req.id.getD 0 = 0 →
      jsTrim req.barcode ≠ "" →
      (db.books.any fun b => b.barcode = jsTrim req.barcode) = true →
      postBooks gen req db = .error ⟨400, "כבר קיים ספר עם ברקוד זה"⟩) ∧
    (∀ e, postBooks gen req db = .error e → runOp (.upsertBook gen req) db = db) := by
  refine ⟨?_, ?_, ?_, ?_, ?_, ?_, ?_⟩
  · intro h1
    unfold postBooks
    rw [if_pos h1]
  · intro h1 h2
    unfold postBooks
    rw [if_neg h1, h2]
  · intro p h1 h2 h3
    unfold postBooks
    rw [if_neg h1, h2]
    dsimp only
    rw [if_pos h3]
  · intro p h1 h2 h3 h4
    unfold postBooks
    rw [if_neg h1, h2]
    dsimp only
    rw [if_neg h3, h4]
  · intro p n h1 h2 h3 h4 h5
    unfold postBooks
    rw [if_neg h1, h2]
    dsimp only
    rw [if_neg h3, h4]
    dsimp only
    rw [if_pos h5]
  · intro p n h1 h2 h3 h4 h5 h6 h7 h8
    unfold postBooks
    rw [if_neg h1, h2]
    dsimp only
    rw [if_neg h3, h4]
    dsimp only
    rw [if_neg h5]
    rw [if_pos h6, if_pos ⟨h7, h8⟩]
  · intro e he
    simp only [runOp, he, stepDb]

def w5db : Db := ⟨[⟨1, "K", "T", "", "", "", 1, 0, 0⟩], [], [], []⟩

def w5reqT : BookReq := ⟨none, "B2", "   ", "", "", "", .num 1, .num 1⟩

def w5reqC : BookReq := ⟨none, "K", "T2", "", "", "", .num 1, .num 1⟩

/-- C5 witness: a create request with a whitespace-only title is rejected with the
title error, and a create request whose supplied code "K" collides with an existing
book is rejected with the conflict error, leaving the snapshot unchanged. -/
theorem c5_witness :
    postBooks "G" w5reqT w5db = .error ⟨400, "חסר שם ספר"⟩ ∧
    postBooks "G" w5reqC w5db = .error ⟨400, "כבר קיים ספר עם ברקוד זה"⟩ ∧
    runOp (.upsertBook "G" w5reqC) w5db = w5db := by
  have hB := (c5_amended_createBook "G" w5reqC w5db).2.2.2.2.2.1 1 1 (by decide)
    (by decide) (by decide) (by decide) (by decide) (by decide) (by decide) (by decide)
  exact ⟨(c5_amended_createBook "G" w5reqT w5db).1 (by decide), hB,
    (c5_amended_createBook "G" w5reqC w5db).2.2.2.2.2.2 _ hB⟩

/-- C2: if any line item of a batch-sale request fails validation against the
incoming snapshot — empty or unknown book code, non-positive or malformed quantity,
or quantity above that book's current stock — the whole request returns an error
and the snapshot is completely unchanged (no quantity change, no movement, no sale),
regardless of how many earlier items would individually have passed. -/
theorem c2_batch_abort_atomic (db : Db) (sc : String) (items : List ItemReq)
    (h : ∃ it ∈ items, itemOkB db.books it = false) :
    (∃ e, postSalesQuick sc (some items) db = .error e) ∧
    runOp (.saleQuick sc (some items)) db = db := by
  have hmain : ∃ e, postSalesQuick sc (some items) db = .error e := by
    unfold postSalesQuick
    by_cases hsc : jsTrim sc = ""
    · rw [if_pos hsc]
      exact ⟨_, rfl⟩
    · rw [if_neg hsc]
      dsimp only
      have hne : items ≠ [] := by
        rcases h with ⟨it, hmem, _⟩
        intro he
        subst he
        simp at hmem
      match items, h, hne with
      | item :: rest, h, _ =>
        rw [if_neg (by simp)]
        rcases hfs : db.sellers.find? (fun s => s.barcode = jsTrim sc) with _ | seller
        · rw [hfs]
          exact ⟨_, rfl⟩
        · rw [hfs]
          dsimp only
          obtain ⟨e, he⟩ := normalizeQuickItems_err db.books (item :: rest) 0 h
          rw [he]
          exact ⟨e, rfl⟩
  obtain ⟨e, he⟩ := hmain
  exact ⟨⟨e, he⟩, by simp only [runOp, he, stepDb]⟩

def w2db : Db :=
  ⟨[⟨1, "A", "TA", "", "", "", 10, 5, 5⟩, ⟨2, "B", "TB", "", "", "", 10, 5, 5⟩],
   [⟨1, "N", "S"⟩], [], []⟩

/-- C2 witness: the spec's own example — items `[{A,2},{B,999}]` where B has stock 5:
item 1 alone would pass, item 2 exceeds stock, and the whole request errors leaving
the snapshot untouched. -/
theorem c2_witness :
    (∃ e, postSalesQuick "S" (some [⟨"A", .num 2⟩, ⟨"B", .num 999⟩]) w2db =
      .error e) ∧
    runOp (.saleQuick "S" (some [⟨"A", .num 2⟩, ⟨"B", .num 999⟩])) w2db = w2db :=
  c2_batch_abort_atomic w2db "S" [⟨"A", .num 2⟩, ⟨"B", .num 999⟩] (by decide)

def c1row : Row := ⟨"X", "T", "", "", "", .missing, .num 1⟩

/-- C1 counterexample: starting from the empty snapshot (where the ledger equation
holds vacuously), importing one TSV row with initial quantity 1 yields a book with
`current_qty = 1` and `initial_qty = 1` *and* one `in` movement of quantity 1 for
its code, so `current_qty ≠ initial_qty + Σin − Σout` (1 ≠ 2): the invariant is
violated right after a TSV import. -/
theorem c1_counterexample :
    invDb dbEmpty ∧ wfCodes dbEmpty ∧
      ¬ invDb (runOp (.importTsv (some [c1row])) dbEmpty) :=
  ⟨by decide, by decide, by decide⟩

/-- C1 (amended): on a snapshot with pairwise-distinct book codes satisfying the
ledger equation, the equation is preserved by incoming stock, single sale, batch
sale, and deletion; by book creation provided no existing movement references the
created book's (supplied or generated) code; and by update provided no new code is
supplied.  It is NOT preserved by TSV import (see the counterexample: the import's
synthetic movement double-counts the initial quantity), nor by an update that
changes the code away from its movement history, nor by a create that reuses the
orphaned code of a deleted book. -/
theorem c1_amended_ledger (db : Db) (hwf : wfCodes db) (hinv : invDb db) :
    (∀ bc q n, invDb (runOp (.stockIn bc q n) db)) ∧
    (∀ bc sc q, invDb (runOp (.sale bc sc q) db)) ∧
    (∀ sc its, invDb (runOp (.saleQuick sc its) db)) ∧
    (∀ ids, invDb (runOp (.deleteBooks ids) db)) ∧
    (∀ gen req, req.id.getD 0 = 0 →
      (∀ m ∈ db.stockMovements, m.bookBarcode ≠ chosenCode gen req) →
      invDb (runOp (.upsertBook gen req) db)) ∧
    (∀ gen req, req.id.getD 0 ≠ 0 → jsTrim req.barcode = "" →
      invDb (runOp (.upsertBook gen req) db)) := by
  refine ⟨?_, ?_, ?_, ?_, ?_, ?_⟩
  · intro bc q n
    simp only [runOp]
    cases hres : postStockIn bc q n db with
    | error e => exact hinv
    | ok p =>
      obtain ⟨db', r⟩ := p
      exact invDb_stockIn hres hwf hinv
  · intro bc sc q
    simp only [runOp]
    cases hres : postStockSale bc sc q db with
    | error e => exact hinv
    | ok p =>
      obtain ⟨db', r⟩ := p
      exact invDb_sale hres hwf hinv
  · intro sc its
    simp only [runOp]
    cases hres : postSalesQuick sc its db with
    | error e => exact hinv
    | ok p =>
      obtain ⟨db', r⟩ := p
      exact invDb_salesQuick hres hwf hinv
  · intro ids
    simp only [runOp]
    cases hres : postBooksDelete ids db with
    | error e => exact hinv
    | ok p =>
      obtain ⟨db', r⟩ := p
      exact invDb_delete hres hinv
  · intro gen req hid hmov
    simp only [runOp]
    cases hres : postBooks gen req db with
    | error e => exact hinv
    | ok p =>
      obtain ⟨db', r⟩ := p
      exact invDb_postBooks_create hres hid hmov hinv
  · intro gen req hid hbar
    simp only [runOp]
    cases hres : postBooks gen req db with
    | error e => exact hinv
    | ok p =>
      obtain ⟨db', r⟩ := p
      exact invDb_postBooks_update hres hid hbar hinv

def w1db : Db :=
  ⟨[⟨1, "A", "T", "", "", "", 10, 2, 5⟩], [⟨1, "N", "S"⟩],
   [⟨1, "in", "A", 3, ""⟩], []⟩

/-- C1 witness: a concrete snapshot satisfying the ledger equation (initial 2, one
`in` movement of 3, current 5) still satisfies it after a restock of 2 and after a
single sale of 1. -/
theorem c1_witness :
    invDb (runOp (.stockIn "A" (.num 2) "") w1db) ∧
    invDb (runOp (.sale "A" "S" (.num 1)) w1db) :=
  ⟨(c1_amended_ledger w1db (by decide) (by decide)).1 "A" (.num 2) "",
   (c1_amended_ledger w1db (by decide) (by decide)).2.1 "A" "S" (.num 1)⟩

def c6db : Db := ⟨[⟨1, "X", "T", "", "", "", 0, 0, 0⟩], [], [], []⟩

/-- C6 counterexample: a row whose code "X" equals an existing book's code but whose
title is empty is NOT skipped — the title check runs before the existing-code check,
so the import records a row error and `skippedExisting` stays 0. -/
theorem c6_counterexample :
    (postImportBooksTsv (some [⟨"X", "", "", "", "", .missing, .missing⟩])
        c6db).toOption.map
      (fun p => (p.2.insertedCount, p.2.skippedExisting, p.2.errors)) =
      some (0, 0, ["שורה 1: חסר שם ספר"]) := by decide

/-- C6 (amended): per imported row, in this order: an empty trimmed title or an
empty trimmed code is recorded as a 1-based-row error (unlike `createBook`, which
generates a code when none is supplied); otherwise a code already present among the
books (including ones inserted earlier in the same import) is skipped and counted in
`skippedExisting` with no error and no insertion; otherwise the price and initial
quantity are validated exactly as `createBook` with failures recorded as row errors;
a valid row is inserted with `current_qty = initial_qty`, and when the initial
quantity is positive one `in` movement for its code is appended.  Rows are processed
independently — a failing row never aborts the remaining rows. -/
theorem c6_amended_import (s : ImpState) (i : Nat) (row : Row) :
    (jsTrim row.title = "" →
      importRow i row s = { s with errors := s.errors ++ [s!"שורה {i + 1}: חסר שם ספר"] }) ∧
    (jsTrim row.title ≠ "" → jsTrim row.barcode = "" →
      importRow i row s = { s with errors := s.errors ++ [s!"שורה {i + 1}: חסר ברקוד"] }) ∧
    (jsTrim row.title ≠ "" → jsTrim row.barcode ≠ "" →
      (s.books.any fun b => b.barcode = jsTrim row.barcode) = true →
      importRow i row s = { s with skippedExisting := s.skippedExisting + 1 }) ∧
    (jsTrim row.title ≠ "" → jsTrim row.barcode ≠ "" →
      (s.books.any fun b => b.barcode = jsTrim row.barcode) = false →
      jsNumber row.price = none →
      importRow i row s = { s with errors := s.errors ++ [s!"שורה {i + 1}: מחיר לא תקין"] }) ∧
    (∀ p, jsTrim row.title ≠ "" → jsTrim row.barcode ≠ "" →
      (s.books.any fun b => b.barcode = jsTrim row.barcode) = false →
      jsNumber row.price = some p → p < 0 →
      importRow i row s = { s with errors := s.errors ++ [s!"שורה {i + 1}: מחיר לא תקין"] }) ∧
    (∀ p, jsTrim row.title ≠ "" → jsTrim row.barcode ≠ "" →
      (s.books.any fun b => b.barcode = jsTrim row.barcode) = false →
      jsNumber row.price = some p → ¬ p < 0 → jsParseInt row.initialQty = none →
      importRow i row s =
        { s with errors := s.errors ++ [s!"שורה {i + 1}: כמות התחלתית לא תקינה"] }) ∧
    (∀ p n, jsTrim row.title ≠ "" → jsTrim row.barcode ≠ "" →
      (s.books.any fun b => b.barcode = jsTrim row.barcode) = false →
      jsNumber row.price = some p → ¬ p < 0 →
      jsParseInt row.initialQty = some n → n < 0 →
      importRow i row s =
        { s with errors := s.errors ++ [s!"שורה {i + 1}: כמות התחלתית לא תקינה"] }) ∧
    (∀ p n, jsTrim row.title ≠ "" → jsTrim row.barcode ≠ "" →
      (s.books.any fun b => b.barcode = jsTrim row.barcode) = false →
      jsNumber row.price = some p → ¬ p < 0 →
      jsParseInt row.initialQty = some n → ¬ n < 0 → 0 < n →
      importRow i row s =
        { s with
          books := s.books ++ [⟨s.nextBookId, jsTrim row.barcode, jsTrim row.title,
            row.author, row.publisher, row.shelf, p, n, n⟩],
          movements := s.movements ++
            [⟨s.nextMoveId, "in", jsTrim row.barcode, n, "ייבוא התחלתי"⟩],
          nextBookId := s.nextBookId + 1, nextMoveId := s.nextMoveId + 1,
          insertedCount := s.insertedCount + 1 }) ∧
    (∀ p, jsTrim row.title ≠ "" → jsTrim row.barcode ≠ "" →
      (s.books.any fun b => b.barcode = jsTrim row.barcode) = false →
      jsNumber row.price = some p → ¬ p < 0 →
      jsParseInt row.initialQty = some 0 →
      importRow i row s =
        { s with
          books := s.books ++ [⟨s.nextBookId, jsTrim row.barcode, jsTrim row.title,
            row.author, row.publisher, row.shelf, p, 0, 0⟩],
          nextBookId := s.nextBookId + 1,
          insertedCount := s.insertedCount + 1 }) ∧
    (∀ (rows : List Row) (r : Row) (j : Nat),
      importRows j (r :: rows) s = importRows (j + 1) rows (importRow j r s)) := by
  refine ⟨?_, ?_, ?_, ?_, ?_, ?_, ?_, ?_, ?_, ?_⟩
  · intro h1
    unfold importRow
    rw [if_pos h1]
  · intro h1 h2
    unfold importRow
    rw [if_neg h1]
    rw [if_pos h2]
  · intro h1 h2 h3
    unfold importRow
    rw [if_neg h1]
    rw [if_neg h2, if_pos h3]
  · intro h1 h2 h3 h4
    unfold importRow
    rw [if_neg h1]
    rw [if_neg h2, if_neg (by simp [h3]), h4]
  · intro p h1 h2 h3 h4 h5
    unfold importRow
    rw [if_neg h1]
    rw [if_neg h2, if_neg (by simp [h3]), h4]
    dsimp only
    rw [if_pos h5]
  · intro p h1 h2 h3 h4 h5 h6
    unfold importRow
    rw [if_neg h1]
    rw [if_neg h2, if_neg (by simp [h3]), h4]
    dsimp only
    rw [if_neg h5, h6]
  · intro p n h1 h2 h3 h4 h5 h6 h7
    unfold importRow
    rw [if_neg h1]
    rw [if_neg h2, if_neg (by simp [h3]), h4]
    dsimp only
    rw [if_neg h5, h6]
    dsimp only
    rw [if_pos h7]
  · intro p n h1 h2 h3 h4 h5 h6 h7 h8
    unfold importRow
    rw [if_neg h1]
    rw [if_neg h2, if_neg (by simp [h3]), h4]
    dsimp only
    rw [if_neg h5, h6]
    dsimp only
    rw [if_neg h7]
    rw [if_pos h8]
  · intro p h1 h2 h3 h4 h5 h6
    unfold importRow
    rw [if_neg h1]
    rw [if_neg h2, if_neg (by simp [h3]), h4]
    dsimp only
    rw [if_neg h5, h6]
    dsimp only
    rw [if_neg (by omega)]
    rw [if_neg (by omega)]
  · intro rows r j
    rw [importRows]

def w6s : ImpState := ⟨[⟨1, "X", "T", "", "", "", 0, 0, 0⟩], [], 2, 1, 0, 0, []⟩

def w6row : Row := ⟨"X", "T2", "", "", "", .missing, .missing⟩

/-- C6 witness: a concrete row with non-empty title and code "X" equal to the
existing book's code is skipped — only `skippedExisting` is incremented, no error,
no insertion, no movement. -/
theorem c6_witness :
    importRow 0 w6row w6s = { w6s with skippedExisting := w6s.skippedExisting + 1 } :=
  (c6_amended_import w6s 0 w6row).2.2.1 (by decide) (by decide) (by decide)

def c3db : Db := ⟨[⟨1, "A", "T", "", "", "", 10, 5, 5⟩], [⟨1, "N", "S"⟩], [], []⟩

/-- C3: evaluation of the code at the failing input.  On a snapshot with 5 copies
of book "A", the engine ACCEPTS the batch `[{A,3},{A,3}]` (each item is checked
against the original stock of 5, not cumulatively), sells 6 copies, and leaves
`current_qty = -1 < 0`: the non-negativity invariant is violated by an accepted
operation. -/
theorem c3_duplicate_batch_negative_stock :
    (postSalesQuick "S" (some [⟨"A", .num 3⟩, ⟨"A", .num 3⟩]) c3db).toOption.map
        (fun p => (p.1.books.map Book.current_qty, p.2.totalQty, p.2.itemsCount)) =
      some ([-1], 6, 2) := by decide

end Bookstore
